import Mathlib

/-!
Shallow embedding of the transcription pipeline of `SubtitleTranscriber.py`
(class `SubtitleTranscriber`: `load_model`, `format_timestamp`, `run`).

Modelling conventions:
* Python floats (segment times) are embedded as exact rationals `ℚ`; the
  arithmetic the code performs on them (`int(x)`, `x * 1000`, the
  `datetime.timedelta` normalisation) is carried out exactly.  To keep every
  definition kernel-computable the rational operations are implemented on the
  `num`/`den` projections with `Int.fdiv`/`Int.tdiv`/`Int.fmod`; bridging
  lemmas relate them to Mathlib's `⌊·⌋`.
* `datetime.timedelta(seconds=x)` stores integer microseconds, rounding the
  fractional microseconds of its argument to the nearest microsecond with
  round-half-to-even (documented `datetime` behaviour); `roundHalfEvenMul`
  models this.
* The file system is a list of the paths that exist (`os.path.exists`), the
  observable effects of `run` are a list of `FileEvent`s, the lazy segment
  stream is a list of `Segment`s, engine/iterator failures are injected with
  `raiseAt`, and the cancellation callback is polled by iteration index.
-/

/-- The decimal digit `d` (`0 ≤ d ≤ 9`) as a character, `0 ↦ '0'`, …, `9 ↦ '9'`. -/
def digitChar (d : ℕ) : Char := Char.ofNat (48 + d)

/-- Little-endian decimal digits with explicit fuel (kernel-computable version of
`Nat.digits 10`; `decDigits_eq_digits` identifies them). -/
def decDigitsAux : ℕ → ℕ → List ℕ
  | 0, _ => []
  | fuel + 1, n => if n = 0 then [] else n % 10 :: decDigitsAux fuel (n / 10)

/-- Little-endian decimal digits of `n` (`[]` for `0`). -/
def decDigits (n : ℕ) : List ℕ := decDigitsAux n n

/-- Decimal representation of a natural number, as Python's `str(n)` produces it
(most significant digit first, no leading zeros, `0 ↦ "0"`). -/
def decRepr (n : ℕ) : String :=
  if n = 0 then "0" else ⟨(decDigits n).reverse.map digitChar⟩

/-- Decimal value of a digit string; a left inverse of `decRepr`. -/
def decVal (s : String) : ℕ :=
  Nat.ofDigits 10 ((s.data.map (fun c => c.toNat - 48)).reverse)

/-- Python's `str(i)` for an integer. -/
def intRepr (i : ℤ) : String :=
  if i < 0 then "-" ++ decRepr i.natAbs else decRepr i.natAbs

/-- Pad a string on the left with `'0'` up to width `w`. -/
def padLeftZeros (w : ℕ) (s : String) : String :=
  ⟨List.replicate (w - s.data.length) '0'⟩ ++ s

/-- Python's `f"{i:0w}"`: zero-pad to total width `w`, the sign before the zeros. -/
def zeroPad (w : ℕ) (i : ℤ) : String :=
  if i < 0 then "-" ++ padLeftZeros (w - 1) (decRepr i.natAbs)
  else padLeftZeros w (decRepr i.natAbs)

/-- Python's `int(q)`: truncation toward zero. -/
def pyTrunc (q : ℚ) : ℤ := Int.tdiv q.num q.den

/-- Python's `int(q * m)` for exact arithmetic: truncation toward zero of `q * m`. -/
def truncMul (q : ℚ) (m : ℕ) : ℤ := Int.tdiv (q.num * m) q.den

/-- `q * m` rounded to the nearest integer, ties to the even integer: the rounding
`datetime.timedelta` applies to the fractional microseconds of a float argument. -/
def roundHalfEvenMul (q : ℚ) (m : ℕ) : ℤ :=
  let n : ℤ := q.num * m
  let d : ℤ := q.den
  let f : ℤ := n.fdiv d
  let r2 : ℤ := 2 * n.fmod d
  if r2 < d then f
  else if d < r2 then f + 1
  else if f.fmod 2 = 0 then f else f + 1

/-- `SubtitleTranscriber.format_timestamp(seconds, separator)`.
`td = datetime.timedelta(seconds=seconds)` normalises to integer microseconds
(rounding half-to-even); then `total_seconds = int(td.total_seconds())`,
`hours/minutes/secs` by `//`/`%` (floor division), and
`millis = int(td.microseconds / 1000)` with `td.microseconds = us mod 10^6`. -/
def format_timestamp (seconds : ℚ) (separator : String) : String :=
  let us : ℤ := roundHalfEvenMul seconds 1000000
  let total_seconds : ℤ := us.tdiv 1000000
  let hours : ℤ := total_seconds.fdiv 3600
  let minutes : ℤ := (total_seconds.fmod 3600).fdiv 60
  let secs : ℤ := total_seconds.fmod 60
  let millis : ℤ := (us.fmod 1000000).tdiv 1000
  zeroPad 2 hours ++ ":" ++ zeroPad 2 minutes ++ ":" ++ zeroPad 2 secs ++
    separator ++ zeroPad 3 millis

/-- The Timestamp Formatter exactly as the specification's words describe it, for
comparison with the code's `format_timestamp`: the whole-second component is the
integer truncation of total seconds and the millisecond component is the
sub-second remainder truncated (not rounded) to milliseconds.  Written for
`seconds ≥ 0` (the spec leaves negative input undefined), where truncation and
floor agree. -/
def format_timestamp_specModel (seconds : ℚ) (separator : String) : String :=
  let total_seconds : ℤ := seconds.num.fdiv seconds.den
  let hours : ℤ := total_seconds.fdiv 3600
  let minutes : ℤ := (total_seconds.fmod 3600).fdiv 60
  let secs : ℤ := total_seconds.fmod 60
  let millis : ℤ := (seconds.num * 1000).fdiv seconds.den - 1000 * total_seconds
  zeroPad 2 hours ++ ":" ++ zeroPad 2 minutes ++ ":" ++ zeroPad 2 secs ++
    separator ++ zeroPad 3 millis

/-- ASCII lowercasing of one character, as Lean's `Char.toLower` and (on the ASCII
range the code compares against) Python's `str.lower` do. -/
def charLower (c : Char) : Char :=
  if 65 ≤ c.toNat ∧ c.toNat ≤ 90 then Char.ofNat (c.toNat + 32) else c

/-- Python's `s.lower()` (ASCII range). -/
def strLower (s : String) : String := ⟨s.data.map charLower⟩

/-- The ASCII whitespace characters Python's `str.strip()` removes. -/
def isPyWhitespace (c : Char) : Bool :=
  c == ' ' || c == '\t' || c == '\n' || c == '\r' || c == '\x0b' || c == '\x0c'

/-- Python's `s.strip()`: leading and trailing whitespace removed. -/
def strStrip (s : String) : String :=
  ⟨((s.data.dropWhile isPyWhitespace).reverse.dropWhile isPyWhitespace).reverse⟩

/-- Bool test whether `pre` is a prefix of `l`. -/
def listPrefixEq : List Char → List Char → Bool
  | [], _ => true
  | _ :: _, [] => false
  | a :: as, b :: bs => a == b && listPrefixEq as bs

/-- Python's substring test `sub in s`. -/
def strContains (s sub : String) : Bool :=
  (List.range (s.data.length + 1)).any fun k => listPrefixEq sub.data (s.data.drop k)

/-- The remediation message `load_model` raises when a GPU/driver library is missing. -/
def gpuFriendlyMsg : String :=
  "啟動 GPU 模式失敗。\n原因: 找不到必要的 NVIDIA 驅動程式或 cuDNN 函式庫。\n解決方案: 請將「運算單元」切換為 \x27cpu\x27 模式。"

/-- The test `load_model` applies to `str(e).lower()` to diagnose a missing
GPU/driver library: any of "cudnn", "cublas", "load symbol", "dll" occurs. -/
def isGpuLibError (errStr : String) : Bool :=
  let e := strLower errStr
  strContains e "cudnn" || strContains e "cublas" ||
    strContains e "load symbol" || strContains e "dll"

/-- The message of the exception `load_model` re-raises when constructing the
engine failed with message `e`: the friendly GPU remediation message when the
error is diagnosed as a missing GPU library, otherwise `e` unchanged. -/
def classifyInitError (e : String) : String :=
  if isGpuLibError e then gpuFriendlyMsg else e

/-- Index of the last occurrence of `c` in `l`. -/
def lastIndexOf (c : Char) : List Char → Option ℕ
  | [] => none
  | x :: xs =>
    match lastIndexOf c xs with
    | some i => some (i + 1)
    | none => if x = c then some 0 else none

/-- The split position of `os.path.splitext` (posix): the index of the last `'.'`,
provided it lies in the last path component and that component has a non-dot
character before it (leading dots do not start an extension). -/
def splitextPos (l : List Char) : Option ℕ :=
  match lastIndexOf '.' l with
  | none => none
  | some d =>
    let s : ℕ := match lastIndexOf '/' l with | none => 0 | some si => si + 1
    if d < s then none
    else if (List.range' s (d - s)).any (fun j => l.getD j '.' != '.') then some d
    else none

/-- `os.path.splitext(p)[0]`: the path without its extension. -/
def splitextRoot (p : String) : String :=
  match splitextPos p.data with
  | none => p
  | some d => ⟨p.data.take d⟩

/-- `os.path.splitext(p)[1]`: the extension (empty, or beginning with `'.'`). -/
def splitextExt (p : String) : String :=
  match splitextPos p.data with
  | none => ""
  | some d => ⟨p.data.drop d⟩

/-- The `counter`-th candidate output path `run` probes: the initial
`base_output_path` for `0`, and `f"{path_no_ext}_{counter}{ext}"` for `counter ≥ 1`. -/
def candidate (base pathNoExt ext : String) : ℕ → String
  | 0 => base
  | k + 1 => pathNoExt ++ "_" ++ decRepr (k + 1) ++ ext

/-- The collision-avoidance loop `while os.path.exists(output_path): ...` of `run`,
probing `candidate k`, `candidate (k+1)`, … .  `fuel` bounds the recursion; with
the fuel `resolveOutputPath` supplies it never runs out (`resolveFrom_eq_candidate_freeIndex`
together with `freeIndex_not_mem`). -/
def resolveFrom (existing : List String) (base pathNoExt ext : String) :
    ℕ → ℕ → String
  | 0, k => candidate base pathNoExt ext k
  | fuel + 1, k =>
    if candidate base pathNoExt ext k ∈ existing then
      resolveFrom existing base pathNoExt ext fuel (k + 1)
    else candidate base pathNoExt ext k

/-- The collision-free output path `run` settles on, starting from the initial candidate. -/
def resolveOutputPath (existing : List String) (base pathNoExt ext : String) : String :=
  resolveFrom existing base pathNoExt ext (existing.length + 1) 0

/-- The index of the candidate `resolveFrom` settles on. -/
def freeIndexFrom (existing : List String) (base pathNoExt ext : String) :
    ℕ → ℕ → ℕ
  | 0, k => k
  | fuel + 1, k =>
    if candidate base pathNoExt ext k ∈ existing then
      freeIndexFrom existing base pathNoExt ext fuel (k + 1)
    else k

/-- The index of the candidate `resolveOutputPath` settles on. -/
def freeIndex (existing : List String) (base pathNoExt ext : String) : ℕ :=
  freeIndexFrom existing base pathNoExt ext (existing.length + 1) 0

/-- `base_output_path` of `run`: stem of the source path, plus `".en"` exactly for
the translate task, plus `"." + output_format.lower()`. -/
def runBasePath (file_path output_format task : String) : String :=
  splitextRoot file_path ++ (if task = "translate" then ".en" else "") ++
    ("." ++ strLower output_format)

/-- The output path of a run, as `run` resolves it before consuming any segment:
`runBasePath`, made collision-free against the existing files. -/
def resolvedOutputPath (existing : List String) (file_path output_format task : String) :
    String :=
  let base := runBasePath file_path output_format task
  resolveOutputPath existing base (splitextRoot base) ("." ++ strLower output_format)

/-- One timed text segment yielded by the engine (times in seconds). -/
structure Segment where
  start : ℚ
  end_ : ℚ
  text : String
  deriving DecidableEq

/-- One record of the buffered JSON output: `{"id": i, "start": ..., "end": ..., "text": ...}`. -/
structure JsonRecord where
  id : ℕ
  start : ℚ
  end_ : ℚ
  text : String
  deriving DecidableEq

/-- The observable file-system effects of a run.  A `jsonDump` stands for the
`with open(...): json.dump(json_results, f, ensure_ascii=False, indent=2)` at the
end of a JSON run, recording the dumped records and the serializer arguments. -/
inductive FileEvent where
  | openFile (path : String)
  | write (s : String)
  | closeFile
  | jsonDump (path : String) (records : List JsonRecord) (ensureAscii : Bool) (indent : ℕ)
  deriving DecidableEq

/-- How a run ends: `run` returns the output path, returns `None` after a
cancellation, or propagates an exception (classified initialization failure, or
an engine/iteration failure). -/
inductive RunOutcome where
  | success (path : String)
  | cancelled
  | initFailure (message : String)
  | engineFailure
  deriving DecidableEq

/-- How the segment-consumption loop ends. -/
inductive LoopExit where
  | normal
  | cancelled
  | failed
  deriving DecidableEq

/-- The observables the segment-consumption loop accumulates. -/
structure LoopOut where
  events : List FileEvent
  records : List JsonRecord
  segmentLogs : List String
  exit : LoopExit
  deriving DecidableEq

/-- Python truthiness of the optional `initial_prompt`: `None` and `""` are falsy. -/
def pyTruthy : Option String → Bool
  | none => false
  | some s => !(s == "")

/-- One poll of `cancel_check_callback` at iteration `i`; `none` models passing no
callback (`if cancel_check_callback and cancel_check_callback():`). -/
def pollCancel (cancel : Option (ℕ → Bool)) (i : ℕ) : Bool :=
  match cancel with
  | none => false
  | some f => f i

/-- The marker `run` writes into an open streaming destination on cancellation. -/
def interruptionMarker : String := "\n[Interrupted by User]\n"

/-- The header written right after opening a streaming destination. -/
def headerWrites (fmtL : String) : List FileEvent :=
  if fmtL = "vtt" then [.write "WEBVTT\n\n"]
  else if fmtL = "tsv" then [.write "start\tend\ttext\n"]
  else []

/-- The writes `run` performs for the segment at 0-based index `i` when a
streaming destination is open, following the branch structure of the loop body:
`txt`, then `tsv`, then the srt/vtt branch (whose inner conditions leave an
unrecognized format with no writes at all). -/
def segmentBody (fmtL : String) (i : ℕ) (seg : Segment) : List FileEvent :=
  let text := strStrip seg.text
  if fmtL = "txt" then [.write (text ++ "\n")]
  else if fmtL = "tsv" then
    [.write (intRepr (truncMul seg.start 1000) ++ "\t" ++
      intRepr (truncMul seg.end_ 1000) ++ "\t" ++ text ++ "\n")]
  else
    let separator := if fmtL = "vtt" then "." else ","
    let startStr := format_timestamp seg.start separator
    let endStr := format_timestamp seg.end_ separator
    if fmtL = "srt" then
      [.write (decRepr (i + 1) ++ "\n"),
       .write (startStr ++ " --> " ++ endStr ++ "\n"),
       .write (text ++ "\n\n")]
    else if fmtL = "vtt" then
      [.write (startStr ++ " --> " ++ endStr ++ "\n"),
       .write (text ++ "\n\n")]
    else []

/-- The record appended to `json_results` for the segment at 0-based index `i`. -/
def mkJsonRecord (i : ℕ) (seg : Segment) : JsonRecord :=
  { id := i, start := seg.start, end_ := seg.end_, text := strStrip seg.text }

/-- The per-segment log line `f"[{log_timestamp}] {text}"` (comma separator always). -/
def logLine (seg : Segment) : String :=
  "[" ++ format_timestamp seg.start "," ++ "] " ++ strStrip seg.text

/-- The segment-consumption loop of `run`, at absolute iteration index `i`.
Pulling the next segment can raise (`raiseAt`, modelling an engine failure during
lazy decoding); then the cancellation callback is polled; then the segment is
logged and written (streaming) or buffered (json). -/
def segLoop (fmtL : String) (fileOpened : Bool) (cancel : Option (ℕ → Bool))
    (raiseAt : Option ℕ) : ℕ → List Segment → LoopOut
  | i, [] =>
    if raiseAt = some i then ⟨[], [], [], .failed⟩ else ⟨[], [], [], .normal⟩
  | i, seg :: rest =>
    if raiseAt = some i then ⟨[], [], [], .failed⟩
    else if pollCancel cancel i then
      ⟨if fileOpened then [.write interruptionMarker] else [], [], [], .cancelled⟩
    else
      let evs := if fmtL = "json" then []
        else if fileOpened then segmentBody fmtL i seg else []
      let recs := if fmtL = "json" then [mkJsonRecord i seg] else []
      let rest' := segLoop fmtL fileOpened cancel raiseAt (i + 1) rest
      ⟨evs ++ rest'.events, recs ++ rest'.records,
        logLine seg :: rest'.segmentLogs, rest'.exit⟩

/-- The observables of one `SubtitleTranscriber.run` call.
`optionsTask`, `optionsBeamSize`, `optionsPrompt` record the `transcribe_options`
the engine is invoked with (meaningful when `engineInvoked`); `promptLogEmitted`
records whether the prompt log line of line 82 was emitted. -/
structure RunOutput where
  outcome : RunOutcome
  events : List FileEvent
  engineInvoked : Bool
  optionsTask : String
  optionsBeamSize : ℕ
  optionsPrompt : Option String
  promptLogEmitted : Bool
  segmentLogs : List String
  deriving DecidableEq

/-- The body of `run` once the engine is (or has been) initialized successfully. -/
def runBody (file_path : String) (existing : List String) (cancel : Option (ℕ → Bool))
    (raiseAt : Option ℕ) (output_format : String) (initial_prompt : Option String)
    (task : String) (segments : List Segment) : RunOutput :=
  let promptLogEmitted := pyTruthy initial_prompt && (task == "transcribe")
    let optionsPrompt := if pyTruthy initial_prompt then initial_prompt else none
    let fmtL := strLower output_format
    let output_path := resolvedOutputPath existing file_path output_format task
    let fileOpened := !(fmtL == "json")
    let preEvents := if fileOpened then FileEvent.openFile output_path :: headerWrites fmtL
      else []
    let lo := segLoop fmtL fileOpened cancel raiseAt 0 segments
    let postEvents := match lo.exit with
      | .normal => if fmtL = "json" then [FileEvent.jsonDump output_path lo.records false 2]
        else []
      | _ => []
    let closeEvents := if fileOpened then [FileEvent.closeFile] else []
    let outcome := match lo.exit with
      | .normal => RunOutcome.success output_path
      | .cancelled => RunOutcome.cancelled
      | .failed => RunOutcome.engineFailure
    { outcome := outcome, events := preEvents ++ lo.events ++ postEvents ++ closeEvents,
      engineInvoked := true, optionsTask := task, optionsBeamSize := 5,
      optionsPrompt := optionsPrompt, promptLogEmitted := promptLogEmitted,
      segmentLogs := lo.segmentLogs }

/-- `SubtitleTranscriber.run(file_path, ..., cancel_check_callback, output_format,
initial_prompt, task)`.  `modelLoaded` is whether `self.model` is already set;
`initError` is the exception message `WhisperModel(...)` would raise (`none` for a
successful construction); `existing` is the set of paths `os.path.exists` reports;
`segments` is the segment stream the engine yields; `raiseAt` injects an engine
failure at that iteration index. -/
def run (modelLoaded : Bool) (initError : Option String) (file_path : String)
    (existing : List String) (cancel : Option (ℕ → Bool)) (raiseAt : Option ℕ)
    (output_format : String) (initial_prompt : Option String) (task : String)
    (segments : List Segment) : RunOutput :=
  match modelLoaded, initError with
  | false, some e =>
    { outcome := .initFailure (classifyInitError e), events := [],
      engineInvoked := false, optionsTask := task, optionsBeamSize := 5,
      optionsPrompt := none, promptLogEmitted := false, segmentLogs := [] }
  | _, _ =>
    runBody file_path existing cancel raiseAt output_format initial_prompt task segments

/-- The records of the JSON document a run dumped, if any. -/
def dumpedRecords (o : RunOutput) : Option (List JsonRecord) :=
  o.events.findSome? fun e =>
    match e with
    | .jsonDump _ records _ _ => some records
    | _ => none

theorem decDigitsAux_eq_digits (fuel n : ℕ) (h : n ≤ fuel) :
    decDigitsAux fuel n = Nat.digits 10 n := by
  induction fuel generalizing n with
  | zero =>
    have h0 : n = 0 := Nat.le_zero.mp h
    simp [h0, decDigitsAux]
  | succ fuel ih =>
    rw [decDigitsAux]
    by_cases h0 : n = 0
    · simp [h0]
    · rw [if_neg h0, ih (n / 10) (by
        have := Nat.div_lt_self (Nat.pos_of_ne_zero h0) (by norm_num : 1 < 10)
        omega)]
      exact (Nat.digits_def' (by norm_num) (Nat.pos_of_ne_zero h0)).symm

theorem decDigits_eq_digits (n : ℕ) : decDigits n = Nat.digits 10 n :=
  decDigitsAux_eq_digits n n le_rfl

theorem decVal_decRepr (n : ℕ) : decVal (decRepr n) = n := by
  by_cases h0 : n = 0
  · subst h0; decide
  · rw [decRepr, if_neg h0, decVal]
    show Nat.ofDigits 10
      ((((decDigits n).reverse.map digitChar).map (fun c => c.toNat - 48)).reverse) = n
    rw [List.map_map]
    have hlt : ∀ d ∈ (decDigits n).reverse, ((fun c => c.toNat - 48) ∘ digitChar) d = d := by
      intro d hd
      have hd10 : d < 10 := by
        rw [decDigits_eq_digits] at hd
        exact Nat.digits_lt_base (by norm_num) (List.mem_reverse.mp hd)
      have : ∀ d' : ℕ, d' < 10 → ((fun c => c.toNat - 48) ∘ digitChar) d' = d' := by decide
      exact this d hd10
    rw [List.map_congr_left hlt]
    simp only [List.map_id']
    rw [List.reverse_reverse, decDigits_eq_digits, Nat.ofDigits_digits]

theorem decRepr_injective : Function.Injective decRepr := by
  intro a b h
  have h2 := congrArg decVal h
  rwa [decVal_decRepr, decVal_decRepr] at h2

theorem lastIndexOf_getElem (c : Char) (l : List Char) (i : ℕ)
    (h : lastIndexOf c l = some i) : l[i]? = some c := by
  induction l generalizing i with
  | nil => simp [lastIndexOf] at h
  | cons x xs ih =>
    rw [lastIndexOf] at h
    cases hx : lastIndexOf c xs with
    | some j =>
      rw [hx] at h
      have hij : i = j + 1 := by simpa using h.symm
      subst hij
      simpa using ih j hx
    | none =>
      rw [hx] at h
      by_cases hxc : x = c
      · rw [if_pos hxc] at h
        have hi : i = 0 := by simpa using h.symm
        subst hi
        simp [hxc]
      · rw [if_neg hxc] at h
        simp at h

theorem splitextPos_eq_lastIndexOf (l : List Char) (d : ℕ) (h : splitextPos l = some d) :
    lastIndexOf '.' l = some d := by
  rw [splitextPos] at h
  cases hx : lastIndexOf '.' l with
  | none => rw [hx] at h; simp at h
  | some d0 =>
    rw [hx] at h
    dsimp only at h
    split at h
    · simp at h
    · split at h
      · exact h
      · simp at h

theorem splitextRoot_append_splitextExt (p : String) :
    splitextRoot p ++ splitextExt p = p := by
  rw [splitextRoot, splitextExt]
  cases h : splitextPos p.data with
  | none =>
    apply String.ext
    rw [String.data_append]
    simp
  | some d =>
    apply String.ext
    rw [String.data_append]
    exact List.take_append_drop d p.data

theorem splitextExt_empty_or_dot (p : String) :
    splitextExt p = "" ∨ ∃ t, (splitextExt p).data = '.' :: t := by
  rw [splitextExt]
  cases h : splitextPos p.data with
  | none => left; rfl
  | some d =>
    right
    have hdot : p.data[d]? = some '.' :=
      lastIndexOf_getElem '.' p.data d (splitextPos_eq_lastIndexOf p.data d h)
    have hlt : d < p.data.length := by
      by_contra hge
      rw [List.getElem?_eq_none (by omega)] at hdot
      exact Option.noConfusion hdot
    refine ⟨p.data.drop (d + 1), ?_⟩
    show (p.data.drop d) = '.' :: p.data.drop (d + 1)
    rw [List.drop_eq_getElem_cons hlt]
    have : p.data[d] = '.' := by
      have := List.getElem?_eq_getElem hlt
      rw [this] at hdot
      exact Option.some.inj hdot
    rw [this]

theorem candidate_injective (base ext : String) :
    Function.Injective (candidate base (splitextRoot base) ext) := by
  have hdata : ∀ k : ℕ, (candidate base (splitextRoot base) ext (k + 1)).data =
      (splitextRoot base).data ++ ('_' :: ((decRepr (k + 1)).data ++ ext.data)) := by
    intro k
    show (splitextRoot base ++ "_" ++ decRepr (k + 1) ++ ext).data = _
    rw [String.data_append, String.data_append, String.data_append]
    simp [List.append_assoc]
  have hbase : base.data = (splitextRoot base).data ++ (splitextExt base).data := by
    conv_lhs => rw [← splitextRoot_append_splitextExt base]
    rw [String.data_append]
  intro j k h
  match j, k with
  | 0, 0 => rfl
  | 0, k + 1 =>
    exfalso
    have h' : base.data =
        (splitextRoot base).data ++ ('_' :: ((decRepr (k + 1)).data ++ ext.data)) :=
      (congrArg String.data h).trans (hdata k)
    rw [hbase] at h'
    have hext := List.append_cancel_left h'
    rcases splitextExt_empty_or_dot base with he | ⟨t, he⟩
    · rw [he] at hext
      simp at hext
    · rw [he] at hext
      exact absurd (List.cons.inj hext).1 (by decide)
  | j + 1, 0 =>
    exfalso
    have h' : base.data =
        (splitextRoot base).data ++ ('_' :: ((decRepr (j + 1)).data ++ ext.data)) :=
      (congrArg String.data h.symm).trans (hdata j)
    rw [hbase] at h'
    have hext := List.append_cancel_left h'
    rcases splitextExt_empty_or_dot base with he | ⟨t, he⟩
    · rw [he] at hext
      simp at hext
    · rw [he] at hext
      exact absurd (List.cons.inj hext).1 (by decide)
  | j + 1, k + 1 =>
    have h' := congrArg String.data h
    rw [hdata j, hdata k] at h'
    have h2 := List.append_cancel_left h'
    have h3 := (List.cons.inj h2).2
    have h4 := List.append_cancel_right h3
    have h5 : decRepr (j + 1) = decRepr (k + 1) := String.ext h4
    have := decRepr_injective h5
    omega

theorem exists_candidate_free (existing : List String) (base ext : String) :
    ∃ m, m ≤ existing.length ∧ candidate base (splitextRoot base) ext m ∉ existing := by
  by_contra hc
  push_neg at hc
  have hcard : (Finset.range (existing.length + 1)).card ≤ existing.toFinset.card := by
    apply Finset.card_le_card_of_injOn (fun k => candidate base (splitextRoot base) ext k)
    · intro a ha
      rw [List.mem_toFinset]
      exact hc a (Nat.lt_succ_iff.mp (Finset.mem_range.mp ha))
    · intro a _ b _ hab
      exact candidate_injective base ext hab
  rw [Finset.card_range] at hcard
  have h2 := List.toFinset_card_le existing
  omega

theorem resolveFrom_eq_candidate_freeIndex (existing : List String)
    (base pathNoExt ext : String) (fuel k : ℕ) :
    resolveFrom existing base pathNoExt ext fuel k =
      candidate base pathNoExt ext (freeIndexFrom existing base pathNoExt ext fuel k) := by
  induction fuel generalizing k with
  | zero => rfl
  | succ fuel ih =>
    rw [resolveFrom, freeIndexFrom]
    by_cases h : candidate base pathNoExt ext k ∈ existing
    · rw [if_pos h, if_pos h]
      exact ih (k + 1)
    · rw [if_neg h, if_neg h]

theorem freeIndexFrom_eq (existing : List String) (base pathNoExt ext : String) (m : ℕ)
    (hfree : candidate base pathNoExt ext m ∉ existing)
    (hmin : ∀ j, j < m → candidate base pathNoExt ext j ∈ existing) :
    ∀ fuel k, k ≤ m → m - k < fuel →
      freeIndexFrom existing base pathNoExt ext fuel k = m := by
  intro fuel
  induction fuel with
  | zero => intro k h1 h2; omega
  | succ fuel ih =>
    intro k hk hf
    rw [freeIndexFrom]
    by_cases hkm : k = m
    · subst hkm
      rw [if_neg hfree]
    · rw [if_pos (hmin k (by omega))]
      exact ih (k + 1) (by omega) (by omega)

theorem freeIndex_not_mem (existing : List String) (base ext : String) :
    candidate base (splitextRoot base) ext (freeIndex existing base (splitextRoot base) ext)
      ∉ existing ∧
    ∀ j, j < freeIndex existing base (splitextRoot base) ext →
      candidate base (splitextRoot base) ext j ∈ existing := by
  have hex : ∃ m, candidate base (splitextRoot base) ext m ∉ existing := by
    obtain ⟨m, _, hm⟩ := exists_candidate_free existing base ext
    exact ⟨m, hm⟩
  set m := Nat.find hex with hm_def
  have hfree : candidate base (splitextRoot base) ext m ∉ existing := Nat.find_spec hex
  have hmin : ∀ j, j < m → candidate base (splitextRoot base) ext j ∈ existing := by
    intro j hj
    have := Nat.find_min hex hj
    exact not_not.mp this
  have hmle : m ≤ existing.length := by
    obtain ⟨m', hle, hm'⟩ := exists_candidate_free existing base ext
    exact le_trans (Nat.find_min' hex hm') hle
  have heq : freeIndex existing base (splitextRoot base) ext = m :=
    freeIndexFrom_eq existing base (splitextRoot base) ext m hfree hmin
      (existing.length + 1) 0 (Nat.zero_le m) (by omega)
  rw [heq]
  exact ⟨hfree, hmin⟩

/-- C3: for every source path, task and format, the output path resolver computes
the candidate `<source-stem><task-suffix>.<ext>` with task-suffix `".en"` exactly
when `task = "translate"`; if the candidate exists it tries `_1`, `_2`, … in
increasing integer order starting at 1 (`candidate` maps `k+1` to
`f"{path_no_ext}_{k+1}{ext}"`), and the returned path never exists on disk at the
time of the existence checks: the resolver returns the candidate of the least
index that does not exist, every candidate of a smaller index exists, and the
returned path does not exist. -/
theorem claim3_output_path_resolver (existing : List String)
    (file_path output_format task : String) :
    runBasePath file_path output_format task =
      splitextRoot file_path ++ (if task = "translate" then ".en" else "") ++
        ("." ++ strLower output_format) ∧
    resolvedOutputPath existing file_path output_format task =
      candidate (runBasePath file_path output_format task)
        (splitextRoot (runBasePath file_path output_format task))
        ("." ++ strLower output_format)
        (freeIndex existing (runBasePath file_path output_format task)
          (splitextRoot (runBasePath file_path output_format task))
          ("." ++ strLower output_format)) ∧
    resolvedOutputPath existing file_path output_format task ∉ existing ∧
    ∀ j, j < freeIndex existing (runBasePath file_path output_format task)
        (splitextRoot (runBasePath file_path output_format task))
        ("." ++ strLower output_format) →
      candidate (runBasePath file_path output_format task)
        (splitextRoot (runBasePath file_path output_format task))
        ("." ++ strLower output_format) j ∈ existing := by
  have hres : resolvedOutputPath existing file_path output_format task =
      candidate (runBasePath file_path output_format task)
        (splitextRoot (runBasePath file_path output_format task))
        ("." ++ strLower output_format)
        (freeIndex existing (runBasePath file_path output_format task)
          (splitextRoot (runBasePath file_path output_format task))
          ("." ++ strLower output_format)) :=
    resolveFrom_eq_candidate_freeIndex existing _ _ _ (existing.length + 1) 0
  obtain ⟨hfree, hmin⟩ := freeIndex_not_mem existing
    (runBasePath file_path output_format task) ("." ++ strLower output_format)
  refine ⟨rfl, hres, ?_, hmin⟩
  rw [hres]
  exact hfree

theorem segLoop_normal (fmtL : String) (fo : Bool) (cancel : Option (ℕ → Bool))
    (i : ℕ) (segs : List Segment)
    (hc : ∀ j, j < segs.length → pollCancel cancel (i + j) = false) :
    segLoop fmtL fo cancel none i segs =
      ⟨(segs.enumFrom i).flatMap (fun p =>
          if fmtL = "json" then [] else if fo then segmentBody fmtL p.1 p.2 else []),
        if fmtL = "json" then (segs.enumFrom i).map (fun p => mkJsonRecord p.1 p.2) else [],
        segs.map logLine, .normal⟩ := by
  induction segs generalizing i with
  | nil => simp [segLoop]
  | cons seg rest ih =>
    have h0 : pollCancel cancel i = false := by simpa using hc 0 (by simp)
    have hrest : ∀ j, j < rest.length → pollCancel cancel (i + 1 + j) = false := by
      intro j hj
      have h1 := hc (j + 1) (by simpa using Nat.succ_lt_succ hj)
      have hshift : i + 1 + j = i + (j + 1) := by omega
      rwa [hshift]
    rw [segLoop, ih (i + 1) hrest]
    simp [h0, List.enumFrom_cons]
    split <;> simp

theorem segLoop_cancelled (fmtL : String) (fo : Bool) (cancel : Option (ℕ → Bool))
    (k : ℕ) (i : ℕ) (segs : List Segment) (hk : k < segs.length)
    (hc : ∀ j, j < k → pollCancel cancel (i + j) = false)
    (ht : pollCancel cancel (i + k) = true) :
    segLoop fmtL fo cancel none i segs =
      ⟨((segs.take k).enumFrom i).flatMap (fun p =>
          if fmtL = "json" then [] else if fo then segmentBody fmtL p.1 p.2 else []) ++
          (if fo then [FileEvent.write interruptionMarker] else []),
        if fmtL = "json" then ((segs.take k).enumFrom i).map (fun p => mkJsonRecord p.1 p.2)
          else [],
        (segs.take k).map logLine, .cancelled⟩ := by
  induction k generalizing i segs with
  | zero =>
    cases segs with
    | nil => simp at hk
    | cons seg rest =>
      have ht0 : pollCancel cancel i = true := by simpa using ht
      rw [segLoop]
      simp [ht0]
  | succ k ih =>
    cases segs with
    | nil => simp at hk
    | cons seg rest =>
      have h0 : pollCancel cancel i = false := by simpa using hc 0 (by omega)
      have hrest : ∀ j, j < k → pollCancel cancel (i + 1 + j) = false := by
        intro j hj
        have h1 := hc (j + 1) (by omega)
        have hshift : i + 1 + j = i + (j + 1) := by omega
        rwa [hshift]
      have htrest : pollCancel cancel (i + 1 + k) = true := by
        have : i + 1 + k = i + (k + 1) := by omega
        rw [this]
        exact ht
      rw [segLoop, ih (i + 1) rest (by simpa using Nat.lt_of_succ_lt_succ hk) hrest htrest]
      simp [h0, List.enumFrom_cons]
      split <;> simp

theorem segmentBody_is_write (fmtL : String) (i : ℕ) (seg : Segment) :
    ∀ e ∈ segmentBody fmtL i seg, ∃ s, e = FileEvent.write s := by
  intro e he
  unfold segmentBody at he
  repeat' split at he
  all_goals simp at he
  all_goals (rcases he with rfl | rfl | rfl) <;> exact ⟨_, rfl⟩

theorem segLoop_events_write (fmtL : String) (fo : Bool) (cancel : Option (ℕ → Bool))
    (raiseAt : Option ℕ) :
    ∀ i segs, ∀ e ∈ (segLoop fmtL fo cancel raiseAt i segs).events,
      ∃ s, e = FileEvent.write s := by
  intro i segs
  induction segs generalizing i with
  | nil =>
    intro e he
    rw [segLoop] at he
    split at he <;> simp at he
  | cons seg rest ih =>
    intro e he
    rw [segLoop] at he
    split at he
    · simp at he
    · split at he
      · split at he
        · simp at he
          exact ⟨_, he⟩
        · simp at he
      · simp only [List.mem_append] at he
        rcases he with he | he
        · split at he
          · simp at he
          · split at he
            · exact segmentBody_is_write fmtL i seg e he
            · simp at he
        · exact ih (i + 1) e he

theorem headerWrites_is_write (fmtL : String) :
    ∀ e ∈ headerWrites fmtL, ∃ s, e = FileEvent.write s := by
  intro e he
  unfold headerWrites at he
  split at he
  · simp at he
    exact ⟨_, he⟩
  · split at he
    · simp at he
      exact ⟨_, he⟩
    · simp at he

theorem run_proceeds (modelLoaded : Bool) (initError : Option String)
    (file_path : String) (existing : List String) (cancel : Option (ℕ → Bool))
    (raiseAt : Option ℕ) (output_format : String) (initial_prompt : Option String)
    (task : String) (segments : List Segment)
    (h : modelLoaded = true ∨ initError = none) :
    run modelLoaded initError file_path existing cancel raiseAt output_format
        initial_prompt task segments =
      runBody file_path existing cancel raiseAt output_format initial_prompt
        task segments := by
  cases modelLoaded with
  | true => cases initError <;> rfl
  | false =>
    cases initError with
    | none => rfl
    | some e => rcases h with h | h <;> simp at h

theorem runBody_normal_streaming (file_path : String) (existing : List String)
    (cancel : Option (ℕ → Bool)) (output_format : String) (initial_prompt : Option String)
    (task : String) (segments : List Segment)
    (hc : ∀ j, j < segments.length → pollCancel cancel j = false)
    (hjson : strLower output_format ≠ "json") :
    runBody file_path existing cancel none output_format initial_prompt task segments =
      { outcome := .success (resolvedOutputPath existing file_path output_format task),
        events := .openFile (resolvedOutputPath existing file_path output_format task) ::
          (headerWrites (strLower output_format) ++
            ((segments.enumFrom 0).flatMap
              (fun q => segmentBody (strLower output_format) q.1 q.2) ++ [.closeFile])),
        engineInvoked := true, optionsTask := task, optionsBeamSize := 5,
        optionsPrompt := if pyTruthy initial_prompt then initial_prompt else none,
        promptLogEmitted := pyTruthy initial_prompt && (task == "transcribe"),
        segmentLogs := segments.map logLine } := by
  have hfo : (!(strLower output_format == "json")) = true := by
    simp [hjson]
  have hc0 : ∀ j, j < segments.length → pollCancel cancel (0 + j) = false := by
    intro j hj
    rw [Nat.zero_add]
    exact hc j hj
  simp only [runBody, hfo]
  rw [segLoop_normal _ _ _ 0 _ hc0]
  simp [hjson, List.append_assoc]

theorem runBody_normal_json (file_path : String) (existing : List String)
    (cancel : Option (ℕ → Bool)) (output_format : String) (initial_prompt : Option String)
    (task : String) (segments : List Segment)
    (hc : ∀ j, j < segments.length → pollCancel cancel j = false)
    (hjson : strLower output_format = "json") :
    runBody file_path existing cancel none output_format initial_prompt task segments =
      { outcome := .success (resolvedOutputPath existing file_path output_format task),
        events := [.jsonDump (resolvedOutputPath existing file_path output_format task)
          ((segments.enumFrom 0).map (fun q => mkJsonRecord q.1 q.2)) false 2],
        engineInvoked := true, optionsTask := task, optionsBeamSize := 5,
        optionsPrompt := if pyTruthy initial_prompt then initial_prompt else none,
        promptLogEmitted := pyTruthy initial_prompt && (task == "transcribe"),
        segmentLogs := segments.map logLine } := by
  have hfo : (!(strLower output_format == "json")) = false := by
    simp [hjson]
  have hc0 : ∀ j, j < segments.length → pollCancel cancel (0 + j) = false := by
    intro j hj
    rw [Nat.zero_add]
    exact hc j hj
  simp only [runBody, hfo]
  rw [segLoop_normal _ _ _ 0 _ hc0]
  simp [hjson]

theorem runBody_cancelled_streaming (file_path : String) (existing : List String)
    (cancel : Option (ℕ → Bool)) (output_format : String) (initial_prompt : Option String)
    (task : String) (segments : List Segment) (k : ℕ) (hk : k < segments.length)
    (hc : ∀ j, j < k → pollCancel cancel j = false) (ht : pollCancel cancel k = true)
    (hjson : strLower output_format ≠ "json") :
    runBody file_path existing cancel none output_format initial_prompt task segments =
      { outcome := .cancelled,
        events := .openFile (resolvedOutputPath existing file_path output_format task) ::
          (headerWrites (strLower output_format) ++
            (((segments.take k).enumFrom 0).flatMap
              (fun q => segmentBody (strLower output_format) q.1 q.2) ++
              [.write interruptionMarker, .closeFile])),
        engineInvoked := true, optionsTask := task, optionsBeamSize := 5,
        optionsPrompt := if pyTruthy initial_prompt then initial_prompt else none,
        promptLogEmitted := pyTruthy initial_prompt && (task == "transcribe"),
        segmentLogs := (segments.take k).map logLine } := by
  have hfo : (!(strLower output_format == "json")) = true := by
    simp [hjson]
  have hc0 : ∀ j, j < k → pollCancel cancel (0 + j) = false := by
    intro j hj
    rw [Nat.zero_add]
    exact hc j hj
  have ht0 : pollCancel cancel (0 + k) = true := by
    rw [Nat.zero_add]
    exact ht
  simp only [runBody, hfo]
  rw [segLoop_cancelled _ _ _ k 0 _ hk hc0 ht0]
  simp [hjson, List.append_assoc]

theorem runBody_cancelled_json (file_path : String) (existing : List String)
    (cancel : Option (ℕ → Bool)) (output_format : String) (initial_prompt : Option String)
    (task : String) (segments : List Segment) (k : ℕ) (hk : k < segments.length)
    (hc : ∀ j, j < k → pollCancel cancel j = false) (ht : pollCancel cancel k = true)
    (hjson : strLower output_format = "json") :
    runBody file_path existing cancel none output_format initial_prompt task segments =
      { outcome := .cancelled,
        events := [],
        engineInvoked := true, optionsTask := task, optionsBeamSize := 5,
        optionsPrompt := if pyTruthy initial_prompt then initial_prompt else none,
        promptLogEmitted := pyTruthy initial_prompt && (task == "transcribe"),
        segmentLogs := (segments.take k).map logLine } := by
  have hfo : (!(strLower output_format == "json")) = false := by
    simp [hjson]
  have hc0 : ∀ j, j < k → pollCancel cancel (0 + j) = false := by
    intro j hj
    rw [Nat.zero_add]
    exact hc j hj
  have ht0 : pollCancel cancel (0 + k) = true := by
    rw [Nat.zero_add]
    exact ht
  simp only [runBody, hfo]
  rw [segLoop_cancelled _ _ _ k 0 _ hk hc0 ht0]
  simp [hjson]

theorem segmentBody_unknown_nil (fmtL : String) (i : ℕ) (seg : Segment)
    (h1 : fmtL ≠ "srt") (h2 : fmtL ≠ "vtt") (h3 : fmtL ≠ "txt") (h4 : fmtL ≠ "tsv") :
    segmentBody fmtL i seg = [] := by
  unfold segmentBody
  rw [if_neg h3, if_neg h4, if_neg h1, if_neg h2]

theorem headerWrites_unknown_nil (fmtL : String) (h2 : fmtL ≠ "vtt") (h4 : fmtL ≠ "tsv") :
    headerWrites fmtL = [] := by
  unfold headerWrites
  rw [if_neg h2, if_neg h4]

theorem truncMul_eq_floor (q : ℚ) (m : ℕ) (hq : 0 ≤ q) :
    truncMul q m = ⌊(q * m : ℚ)⌋ := by
  have hnum : 0 ≤ q.num := Rat.num_nonneg.mpr hq
  have h1 : truncMul q m = (q.num * m) / (q.den : ℤ) :=
    Int.tdiv_eq_ediv (by positivity) (by positivity)
  have h2 : (q * m : ℚ) = ((q.num * m : ℤ) : ℚ) / ((q.den : ℕ) : ℚ) := by
    conv_lhs => rw [← Rat.num_div_den q]
    push_cast
    ring
  rw [h1, h2, Rat.floor_intCast_div_natCast]

/-- C5: for streaming formats (`srt`, `vtt`, `txt`, `tsv`) the destination is
opened exactly once, before the first segment, the format's header
(`"WEBVTT\n\n"` for vtt, `"start\tend\ttext\n"` for tsv, none for srt/txt) is
written before any segment body, and each segment's record is appended in
arrival order; for `json` no destination is opened during iteration and the
ordered record list is serialized once, after the sequence is exhausted
normally, with `ensure_ascii=False` and `indent=2`. -/
theorem claim5_streaming_vs_buffered (modelLoaded : Bool) (initError : Option String)
    (file_path : String) (existing : List String) (cancel : Option (ℕ → Bool))
    (output_format : String) (initial_prompt : Option String) (task : String)
    (segments : List Segment)
    (hinit : modelLoaded = true ∨ initError = none)
    (hc : ∀ j, j < segments.length → pollCancel cancel j = false) :
    (strLower output_format = "srt" ∨ strLower output_format = "vtt" ∨
        strLower output_format = "txt" ∨ strLower output_format = "tsv" →
      (run modelLoaded initError file_path existing cancel none output_format
          initial_prompt task segments).events =
        .openFile (resolvedOutputPath existing file_path output_format task) ::
          (headerWrites (strLower output_format) ++
            ((segments.enumFrom 0).flatMap
              (fun q => segmentBody (strLower output_format) q.1 q.2) ++ [.closeFile]))) ∧
    (strLower output_format = "json" →
      (run modelLoaded initError file_path existing cancel none output_format
          initial_prompt task segments).events =
        [.jsonDump (resolvedOutputPath existing file_path output_format task)
          ((segments.enumFrom 0).map (fun q => mkJsonRecord q.1 q.2)) false 2]) ∧
    headerWrites "vtt" = [.write "WEBVTT\n\n"] ∧
    headerWrites "tsv" = [.write "start\tend\ttext\n"] ∧
    headerWrites "srt" = [] ∧ headerWrites "txt" = [] := by
  rw [run_proceeds _ _ _ _ _ _ _ _ _ _ hinit]
  refine ⟨?_, ?_, by decide, by decide, by decide, by decide⟩
  · intro hfmt
    have hjson : strLower output_format ≠ "json" := by
      rcases hfmt with h | h | h | h <;> rw [h] <;> decide
    rw [runBody_normal_streaming _ _ _ _ _ _ _ hc hjson]
  · intro hfmt
    rw [runBody_normal_json _ _ _ _ _ _ _ hc hfmt]

theorem claim5_witness :
    (strLower "vtt" = "srt" ∨ strLower "vtt" = "vtt" ∨
        strLower "vtt" = "txt" ∨ strLower "vtt" = "tsv" →
      (run true none "v.mp4" [] none none "vtt" none "transcribe"
          [⟨0, 1, "a"⟩, ⟨1, 2, "b"⟩]).events =
        .openFile (resolvedOutputPath [] "v.mp4" "vtt" "transcribe") ::
          (headerWrites (strLower "vtt") ++
            (([⟨0, 1, "a"⟩, ⟨1, 2, "b"⟩] : List Segment).enumFrom 0).flatMap
              (fun q => segmentBody (strLower "vtt") q.1 q.2) ++ [.closeFile])) ∧
    (strLower "vtt" = "json" →
      (run true none "v.mp4" [] none none "vtt" none "transcribe"
          [⟨0, 1, "a"⟩, ⟨1, 2, "b"⟩]).events =
        [.jsonDump (resolvedOutputPath [] "v.mp4" "vtt" "transcribe")
          ((([⟨0, 1, "a"⟩, ⟨1, 2, "b"⟩] : List Segment).enumFrom 0).map
            (fun q => mkJsonRecord q.1 q.2)) false 2]) ∧
    headerWrites "vtt" = [.write "WEBVTT\n\n"] ∧
    headerWrites "tsv" = [.write "start\tend\ttext\n"] ∧
    headerWrites "srt" = [] ∧ headerWrites "txt" = [] :=
  claim5_streaming_vs_buffered true none "v.mp4" [] none "vtt" none "transcribe"
    [⟨0, 1, "a"⟩, ⟨1, 2, "b"⟩] (Or.inl rfl) (by decide)

/-- C7: in tsv output every segment is written as one line holding start and end
converted to integer milliseconds by round-toward-zero of seconds × 1000,
followed by the stripped text, tab-separated; `truncMul · 1000` is
round-toward-zero of `· × 1000` (equal to the floor on the nonnegative inputs the
engine yields), and `{start=1.2345, end=2.0}` yields 1234 and 2000 (truncated,
not rounded). -/
theorem claim7_tsv_milliseconds (modelLoaded : Bool) (initError : Option String)
    (file_path : String) (existing : List String) (cancel : Option (ℕ → Bool))
    (initial_prompt : Option String) (task : String) (segments : List Segment)
    (hinit : modelLoaded = true ∨ initError = none)
    (hc : ∀ j, j < segments.length → pollCancel cancel j = false) :
    (run modelLoaded initError file_path existing cancel none "tsv"
        initial_prompt task segments).events =
      .openFile (resolvedOutputPath existing file_path "tsv" task) ::
        (.write "start\tend\ttext\n" ::
          ((segments.enumFrom 0).flatMap (fun q =>
            [.write (intRepr (truncMul q.2.start 1000) ++ "\t" ++
              intRepr (truncMul q.2.end_ 1000) ++ "\t" ++ strStrip q.2.text ++ "\n")]) ++
            [.closeFile])) ∧
    (∀ q : ℚ, 0 ≤ q → truncMul q 1000 = ⌊(q * 1000 : ℚ)⌋) ∧
    truncMul (mkRat 12345 10000) 1000 = 1234 ∧
    truncMul (mkRat 2 1) 1000 = 2000 := by
  refine ⟨?_, fun q hq => truncMul_eq_floor q 1000 hq, by decide, by decide⟩
  rw [run_proceeds _ _ _ _ _ _ _ _ _ _ hinit]
  rw [runBody_normal_streaming _ _ _ _ _ _ _ hc (by decide)]
  have hbody : (fun q : ℕ × Segment => segmentBody (strLower "tsv") q.1 q.2) =
      (fun q : ℕ × Segment =>
        [FileEvent.write (intRepr (truncMul q.2.start 1000) ++ "\t" ++
          intRepr (truncMul q.2.end_ 1000) ++ "\t" ++ strStrip q.2.text ++ "\n")]) := by
    funext q
    rfl
  rw [hbody]
  rfl

theorem claim7_witness :
    (run true none "v.mp4" [] none none "tsv" none "transcribe"
        [⟨mkRat 12345 10000, mkRat 2 1, " a "⟩]).events =
      .openFile (resolvedOutputPath [] "v.mp4" "tsv" "transcribe") ::
        (.write "start\tend\ttext\n" ::
          ((([⟨mkRat 12345 10000, mkRat 2 1, " a "⟩] : List Segment).enumFrom 0).flatMap
            (fun q =>
              [.write (intRepr (truncMul q.2.start 1000) ++ "\t" ++
                intRepr (truncMul q.2.end_ 1000) ++ "\t" ++ strStrip q.2.text ++ "\n")]) ++
            [.closeFile])) ∧
    (∀ q : ℚ, 0 ≤ q → truncMul q 1000 = ⌊(q * 1000 : ℚ)⌋) ∧
    truncMul (mkRat 12345 10000) 1000 = 1234 ∧
    truncMul (mkRat 2 1) 1000 = 2000 :=
  claim7_tsv_milliseconds true none "v.mp4" [] none none "transcribe"
    [⟨mkRat 12345 10000, mkRat 2 1, " a "⟩] (Or.inl rfl) (by decide)

/-- C10: for every output format outside srt/vtt/txt/tsv/json (compared
case-insensitively), `run` raises no format error: it opens a destination at the
resolved path, writes no header and no per-segment body, consumes the whole
sequence (one log line per segment), and returns the path as a success
outcome. -/
theorem claim10_unrecognized_format (modelLoaded : Bool) (initError : Option String)
    (file_path : String) (existing : List String) (cancel : Option (ℕ → Bool))
    (output_format : String) (initial_prompt : Option String) (task : String)
    (segments : List Segment)
    (hinit : modelLoaded = true ∨ initError = none)
    (hc : ∀ j, j < segments.length → pollCancel cancel j = false)
    (hfmt : strLower output_format ≠ "srt" ∧ strLower output_format ≠ "vtt" ∧
      strLower output_format ≠ "txt" ∧ strLower output_format ≠ "tsv" ∧
      strLower output_format ≠ "json") :
    (run modelLoaded initError file_path existing cancel none output_format
        initial_prompt task segments).events =
      [.openFile (resolvedOutputPath existing file_path output_format task), .closeFile] ∧
    (run modelLoaded initError file_path existing cancel none output_format
        initial_prompt task segments).outcome =
      .success (resolvedOutputPath existing file_path output_format task) ∧
    (run modelLoaded initError file_path existing cancel none output_format
        initial_prompt task segments).segmentLogs = segments.map logLine := by
  obtain ⟨h1, h2, h3, h4, h5⟩ := hfmt
  rw [run_proceeds _ _ _ _ _ _ _ _ _ _ hinit]
  rw [runBody_normal_streaming _ _ _ _ _ _ _ hc h5]
  refine ⟨?_, rfl, rfl⟩
  rw [headerWrites_unknown_nil _ h2 h4]
  have hbody : ∀ p : ℕ × Segment,
      segmentBody (strLower output_format) p.1 p.2 = [] := fun p =>
    segmentBody_unknown_nil _ _ _ h1 h2 h3 h4
  rw [List.flatMap_eq_nil_iff.mpr (fun p _ => hbody p)]
  rfl

theorem claim10_witness :
    (run true none "v.mp4" [] none none "DOC" none "transcribe"
        [⟨0, 1, "a"⟩]).events =
      [.openFile (resolvedOutputPath [] "v.mp4" "DOC" "transcribe"), .closeFile] ∧
    (run true none "v.mp4" [] none none "DOC" none "transcribe"
        [⟨0, 1, "a"⟩]).outcome =
      .success (resolvedOutputPath [] "v.mp4" "DOC" "transcribe") ∧
    (run true none "v.mp4" [] none none "DOC" none "transcribe"
        [⟨0, 1, "a"⟩]).segmentLogs = ([⟨0, 1, "a"⟩] : List Segment).map logLine :=
  claim10_unrecognized_format true none "v.mp4" [] none "DOC" none "transcribe"
    [⟨0, 1, "a"⟩] (Or.inl rfl) (by decide) (by decide)

/-- C2: when the cancellation poll first returns true before segment `k` (the
first `k` polls return false, the poll before segment `k` returns true, `k` less
than the number of segments), `run` returns the cancellation outcome (`None`, no
path) without consuming any further segment: for the streaming formats the
closed destination holds exactly the `k` already-processed segments plus the
interruption marker before the close, and for json no output file is created and
all accumulated records are discarded (no event at all). -/
theorem claim2_cancellation (modelLoaded : Bool) (initError : Option String)
    (file_path : String) (existing : List String) (f : ℕ → Bool) (k : ℕ)
    (output_format : String) (initial_prompt : Option String) (task : String)
    (segments : List Segment)
    (hinit : modelLoaded = true ∨ initError = none)
    (hk : k < segments.length)
    (hbefore : ∀ j, j < k → f j = false)
    (hat : f k = true) :
    (run modelLoaded initError file_path existing (some f) none output_format
        initial_prompt task segments).outcome = .cancelled ∧
    (strLower output_format = "srt" ∨ strLower output_format = "vtt" ∨
        strLower output_format = "txt" ∨ strLower output_format = "tsv" →
      (run modelLoaded initError file_path existing (some f) none output_format
          initial_prompt task segments).events =
        .openFile (resolvedOutputPath existing file_path output_format task) ::
          (headerWrites (strLower output_format) ++
            (((segments.take k).enumFrom 0).flatMap
              (fun q => segmentBody (strLower output_format) q.1 q.2) ++
              [.write interruptionMarker, .closeFile]))) ∧
    (strLower output_format = "json" →
      (run modelLoaded initError file_path existing (some f) none output_format
          initial_prompt task segments).events = []) ∧
    (run modelLoaded initError file_path existing (some f) none output_format
        initial_prompt task segments).segmentLogs = (segments.take k).map logLine := by
  have hc : ∀ j, j < k → pollCancel (some f) j = false := hbefore
  have ht : pollCancel (some f) k = true := hat
  rw [run_proceeds _ _ _ _ _ _ _ _ _ _ hinit]
  by_cases hjson : strLower output_format = "json"
  · rw [runBody_cancelled_json _ _ _ _ _ _ _ k hk hc ht hjson]
    refine ⟨rfl, ?_, fun _ => rfl, rfl⟩
    intro hfmt
    rcases hfmt with h | h | h | h <;> rw [h] at hjson <;> simp at hjson
  · rw [runBody_cancelled_streaming _ _ _ _ _ _ _ k hk hc ht hjson]
    exact ⟨rfl, fun _ => rfl, fun h => absurd h hjson, rfl⟩

theorem claim2_witness :
    (run true none "v.mp4" [] (some fun i => decide (2 ≤ i)) none "srt"
        none "transcribe"
        [⟨0, 1, "s1"⟩, ⟨1, 2, "s2"⟩, ⟨2, 3, "s3"⟩, ⟨3, 4, "s4"⟩, ⟨4, 5, "s5"⟩]).outcome =
      .cancelled ∧
    (strLower "srt" = "srt" ∨ strLower "srt" = "vtt" ∨
        strLower "srt" = "txt" ∨ strLower "srt" = "tsv" →
      (run true none "v.mp4" [] (some fun i => decide (2 ≤ i)) none "srt"
          none "transcribe"
          [⟨0, 1, "s1"⟩, ⟨1, 2, "s2"⟩, ⟨2, 3, "s3"⟩, ⟨3, 4, "s4"⟩, ⟨4, 5, "s5"⟩]).events =
        .openFile (resolvedOutputPath [] "v.mp4" "srt" "transcribe") ::
          (headerWrites (strLower "srt") ++
            (((([⟨0, 1, "s1"⟩, ⟨1, 2, "s2"⟩, ⟨2, 3, "s3"⟩, ⟨3, 4, "s4"⟩,
                ⟨4, 5, "s5"⟩] : List Segment).take 2).enumFrom 0).flatMap
              (fun q => segmentBody (strLower "srt") q.1 q.2) ++
              [.write interruptionMarker, .closeFile]))) ∧
    (strLower "srt" = "json" →
      (run true none "v.mp4" [] (some fun i => decide (2 ≤ i)) none "srt"
          none "transcribe"
          [⟨0, 1, "s1"⟩, ⟨1, 2, "s2"⟩, ⟨2, 3, "s3"⟩, ⟨3, 4, "s4"⟩, ⟨4, 5, "s5"⟩]).events =
        []) ∧
    (run true none "v.mp4" [] (some fun i => decide (2 ≤ i)) none "srt"
        none "transcribe"
        [⟨0, 1, "s1"⟩, ⟨1, 2, "s2"⟩, ⟨2, 3, "s3"⟩, ⟨3, 4, "s4"⟩, ⟨4, 5, "s5"⟩]).segmentLogs =
      (([⟨0, 1, "s1"⟩, ⟨1, 2, "s2"⟩, ⟨2, 3, "s3"⟩, ⟨3, 4, "s4"⟩,
        ⟨4, 5, "s5"⟩] : List Segment).take 2).map logLine :=
  claim2_cancellation true none "v.mp4" [] (fun i => decide (2 ≤ i)) 2 "srt"
    none "transcribe"
    [⟨0, 1, "s1"⟩, ⟨1, 2, "s2"⟩, ⟨2, 3, "s3"⟩, ⟨3, 4, "s4"⟩, ⟨4, 5, "s5"⟩]
    (Or.inl rfl) (by decide) (by decide) (by decide)

/-- C1 counterexample: a `run` call with `task = "translate"` and a non-empty
`initial_prompt` invokes the engine WITH that prompt in `transcribe_options`
(line 90 of the source guards only on truthiness, not on the task), so the claim
that the engine is invoked without the prompt taking effect is false on the
code. -/
theorem claim1_counterexample :
    (run true none "video.mp4" [] none none "srt" (some "prompt text") "translate"
        []).engineInvoked = true ∧
    (run true none "video.mp4" [] none none "srt" (some "prompt text") "translate"
        []).optionsPrompt ≠ none ∧
    (run true none "video.mp4" [] none none "srt" (some "prompt text") "translate"
        []).optionsPrompt = some "prompt text" := by
  refine ⟨by decide, ?_, by decide⟩
  intro h
  simp [run, runBody, pyTruthy] at h

/-- C1 amended: for every call to `run` that reaches the engine with
`task = "translate"` and a non-empty `initial_prompt`, the prompt is passed to
the engine unchanged in `transcribe_options`; only the prompt *log line* is
suppressed (it is emitted only for the transcribe task).  The suppression the
spec describes happens in the GUI caller, which passes `initial_prompt = None`
whenever the translate task is selected, not in `run` itself. -/
theorem claim1_amended_prompt_passed (modelLoaded : Bool) (initError : Option String)
    (file_path : String) (existing : List String) (cancel : Option (ℕ → Bool))
    (raiseAt : Option ℕ) (output_format : String) (p : String) (task : String)
    (segments : List Segment)
    (hinit : modelLoaded = true ∨ initError = none)
    (htask : task = "translate") (hp : p ≠ "") :
    (run modelLoaded initError file_path existing cancel raiseAt output_format
        (some p) task segments).optionsPrompt = some p ∧
    (run modelLoaded initError file_path existing cancel raiseAt output_format
        (some p) task segments).promptLogEmitted = false ∧
    (run modelLoaded initError file_path existing cancel raiseAt output_format
        (some p) task segments).engineInvoked = true := by
  subst htask
  rw [run_proceeds _ _ _ _ _ _ _ _ _ _ hinit]
  refine ⟨?_, ?_, rfl⟩
  · show (if pyTruthy (some p) then some p else none) = some p
    simp [pyTruthy, hp]
  · show (pyTruthy (some p) && ("translate" == "transcribe")) = false
    simp

theorem claim1_witness :
    (run true none "video.mp4" [] none none "srt" (some "x") "translate"
        []).optionsPrompt = some "x" ∧
    (run true none "video.mp4" [] none none "srt" (some "x") "translate"
        []).promptLogEmitted = false ∧
    (run true none "video.mp4" [] none none "srt" (some "x") "translate"
        []).engineInvoked = true :=
  claim1_amended_prompt_passed true none "video.mp4" [] none none "srt" "x"
    "translate" [] (Or.inl rfl) rfl (by decide)

/-- C8: when the engine is not yet initialized, `run` initializes it first and an
initialization failure aborts the run before any output file is created (no file
event, no engine invocation); when the error message indicates a missing
GPU/driver library the failure carries the actionable remediation message
(switch to CPU), and every other initialization error is re-raised with the
underlying message unchanged.  When the engine is already initialized the
construction is skipped and the run proceeds. -/
theorem claim8_engine_init_failure (file_path : String) (existing : List String)
    (cancel : Option (ℕ → Bool)) (raiseAt : Option ℕ) (output_format : String)
    (initial_prompt : Option String) (task : String) (segments : List Segment)
    (e : String) :
    (run false (some e) file_path existing cancel raiseAt output_format
        initial_prompt task segments).outcome = .initFailure (classifyInitError e) ∧
    (run false (some e) file_path existing cancel raiseAt output_format
        initial_prompt task segments).events = [] ∧
    (run false (some e) file_path existing cancel raiseAt output_format
        initial_prompt task segments).engineInvoked = false ∧
    (isGpuLibError e = true → classifyInitError e = gpuFriendlyMsg) ∧
    (isGpuLibError e = false → classifyInitError e = e) ∧
    (run true (some e) file_path existing cancel raiseAt output_format
        initial_prompt task segments).engineInvoked = true := by
  refine ⟨rfl, rfl, rfl, ?_, ?_, rfl⟩ <;> intro h <;> simp [classifyInitError, h]

theorem count_closeFile_eq_zero (l : List FileEvent)
    (h : ∀ e ∈ l, ∃ s, e = FileEvent.write s) :
    l.count FileEvent.closeFile = 0 := by
  rw [List.count_eq_zero]
  intro hmem
  obtain ⟨s, hs⟩ := h _ hmem
  exact FileEvent.noConfusion hs

theorem runBody_closes (file_path : String) (existing : List String)
    (cancel : Option (ℕ → Bool)) (raiseAt : Option ℕ) (output_format : String)
    (initial_prompt : Option String) (task : String) (segments : List Segment)
    (p : String)
    (hopen : FileEvent.openFile p ∈ (runBody file_path existing cancel raiseAt
        output_format initial_prompt task segments).events) :
    (runBody file_path existing cancel raiseAt output_format initial_prompt task
        segments).events.getLast? = some FileEvent.closeFile ∧
    (runBody file_path existing cancel raiseAt output_format initial_prompt task
        segments).events.count FileEvent.closeFile = 1 := by
  have hwrites := segLoop_events_write (strLower output_format)
    (!(strLower output_format == "json")) cancel raiseAt 0 segments
  by_cases hjson : strLower output_format = "json"
  · exfalso
    have hfo : (!(strLower output_format == "json")) = false := by simp [hjson]
    rw [hfo] at hwrites
    simp only [runBody, hfo, Bool.false_eq_true, if_false, List.nil_append,
      List.append_nil] at hopen
    rcases hexit : (segLoop (strLower output_format) false cancel raiseAt 0 segments).exit
    all_goals rw [hexit] at hopen
    all_goals simp only [List.mem_append] at hopen
    · rcases hopen with hopen | hopen
      · obtain ⟨s, hs⟩ := hwrites _ hopen
        exact FileEvent.noConfusion hs
      · rw [if_pos hjson] at hopen
        simp at hopen
    · rcases hopen with hopen | hopen
      · obtain ⟨s, hs⟩ := hwrites _ hopen
        exact FileEvent.noConfusion hs
      · simp at hopen
    · rcases hopen with hopen | hopen
      · obtain ⟨s, hs⟩ := hwrites _ hopen
        exact FileEvent.noConfusion hs
      · simp at hopen
  · have hfo : (!(strLower output_format == "json")) = true := by simp [hjson]
    rw [hfo] at hwrites
    have hX : List.count FileEvent.closeFile
        (FileEvent.openFile (resolvedOutputPath existing file_path output_format task) ::
          headerWrites (strLower output_format)) = 0 := by
      rw [List.count_eq_zero]
      intro hmem
      rcases List.mem_cons.mp hmem with h | h
      · exact FileEvent.noConfusion h
      · obtain ⟨s, hs⟩ := headerWrites_is_write _ _ h
        exact FileEvent.noConfusion hs
    simp only [runBody, hfo, if_true]
    rcases hexit : (segLoop (strLower output_format) true cancel raiseAt 0 segments).exit
    all_goals simp only [hexit]
    · rw [if_neg hjson]
      refine ⟨List.getLast?_concat _, ?_⟩
      rw [List.append_nil, List.count_append, List.count_append, hX,
        count_closeFile_eq_zero _ hwrites]
      decide
    · refine ⟨List.getLast?_concat _, ?_⟩
      rw [List.append_nil, List.count_append, List.count_append, hX,
        count_closeFile_eq_zero _ hwrites]
      decide
    · refine ⟨List.getLast?_concat _, ?_⟩
      rw [List.append_nil, List.count_append, List.count_append, hX,
        count_closeFile_eq_zero _ hwrites]
      decide

/-- C9: whenever a run opened a streaming destination file (an `openFile` event
occurred), the file handle is closed on every exit path of `run` — normal
completion, cancellation, and any engine/iteration failure injected at any
point: the event trace ends with exactly one `closeFile`. -/
theorem claim9_destination_closed (modelLoaded : Bool) (initError : Option String)
    (file_path : String) (existing : List String) (cancel : Option (ℕ → Bool))
    (raiseAt : Option ℕ) (output_format : String) (initial_prompt : Option String)
    (task : String) (segments : List Segment) (p : String)
    (hopen : FileEvent.openFile p ∈ (run modelLoaded initError file_path existing
        cancel raiseAt output_format initial_prompt task segments).events) :
    (run modelLoaded initError file_path existing cancel raiseAt output_format
        initial_prompt task segments).events.getLast? = some FileEvent.closeFile ∧
    (run modelLoaded initError file_path existing cancel raiseAt output_format
        initial_prompt task segments).events.count FileEvent.closeFile = 1 := by
  cases modelLoaded with
  | false =>
    cases initError with
    | some e => simp [run] at hopen
    | none =>
      rw [run_proceeds _ _ _ _ _ _ _ _ _ _ (Or.inr rfl)] at hopen ⊢
      exact runBody_closes _ _ _ _ _ _ _ _ p hopen
  | true =>
    rw [run_proceeds _ _ _ _ _ _ _ _ _ _ (Or.inl rfl)] at hopen ⊢
    exact runBody_closes _ _ _ _ _ _ _ _ p hopen

theorem claim9_witness :
    (run true none "v.mp4" [] none (some 1) "srt" none "transcribe"
        [⟨0, 1, "a"⟩, ⟨1, 2, "b"⟩]).events.getLast? = some FileEvent.closeFile ∧
    (run true none "v.mp4" [] none (some 1) "srt" none "transcribe"
        [⟨0, 1, "a"⟩, ⟨1, 2, "b"⟩]).events.count FileEvent.closeFile = 1 :=
  claim9_destination_closed true none "v.mp4" [] none (some 1) "srt" none
    "transcribe" [⟨0, 1, "a"⟩, ⟨1, 2, "b"⟩] "v.srt" (by decide)

theorem srt_flatMap_length (segs : List Segment) : ∀ i,
    ((segs.enumFrom i).flatMap (fun q => segmentBody "srt" q.1 q.2)).length =
      3 * segs.length := by
  induction segs with
  | nil => intro i; rfl
  | cons seg rest ih =>
    intro i
    rw [List.enumFrom_cons, List.flatMap_cons, List.length_append, ih (i + 1)]
    have hlen : (segmentBody "srt" i seg).length = 3 := rfl
    rw [hlen, List.length_cons]
    ring

theorem srt_flatMap_getElem (segs : List Segment) :
    ∀ i k, k < segs.length →
      ((segs.enumFrom i).flatMap (fun q => segmentBody "srt" q.1 q.2))[3 * k]? =
        some (FileEvent.write (decRepr (i + k + 1) ++ "\n")) := by
  induction segs with
  | nil => intro i k hk; simp at hk
  | cons seg rest ih =>
    intro i k hk
    rw [List.enumFrom_cons, List.flatMap_cons]
    have hbody : segmentBody "srt" i seg =
        [FileEvent.write (decRepr (i + 1) ++ "\n"),
         FileEvent.write (format_timestamp seg.start "," ++ " --> " ++
           format_timestamp seg.end_ "," ++ "\n"),
         FileEvent.write (strStrip seg.text ++ "\n\n")] := rfl
    rw [hbody]
    cases k with
    | zero => simp
    | succ k =>
      have h3 : 3 * (k + 1) = 3 * k + 1 + 1 + 1 := by ring
      rw [h3]
      simp only [List.cons_append, List.nil_append, List.getElem?_cons_succ]
      rw [ih (i + 1) k (by simpa using Nat.lt_of_succ_lt_succ hk)]
      have h4 : i + 1 + k + 1 = i + (k + 1) + 1 := by ring
      rw [h4]

theorem enumFrom_map_record_getElem (segs : List Segment) :
    ∀ i k s, segs[k]? = some s →
      ((segs.enumFrom i).map (fun q => mkJsonRecord q.1 q.2))[k]? =
        some (mkJsonRecord (i + k) s) := by
  induction segs with
  | nil => intro i k s hk; simp at hk
  | cons seg rest ih =>
    intro i k s hk
    rw [List.enumFrom_cons, List.map_cons]
    cases k with
    | zero =>
      simp only [List.getElem?_cons_zero] at hk
      have hs : seg = s := Option.some.inj hk
      subst hs
      simp
    | succ k =>
      rw [List.getElem?_cons_succ] at hk
      rw [List.getElem?_cons_succ, ih (i + 1) k s hk]
      have h : i + 1 + k = i + (k + 1) := by ring
      rw [h]

/-- C6: for the segment at 0-based position `k`, the cue number written for it in
srt output is `k + 1` (1-based) while the `id` field of the corresponding json
record is `k` (0-based); the asymmetry holds for all segment sequences. -/
theorem claim6_srt_json_index_asymmetry (modelLoaded : Bool) (initError : Option String)
    (file_path : String) (existing : List String) (cancel : Option (ℕ → Bool))
    (initial_prompt : Option String) (task : String) (segments : List Segment)
    (k : ℕ) (s : Segment)
    (hinit : modelLoaded = true ∨ initError = none)
    (hc : ∀ j, j < segments.length → pollCancel cancel j = false)
    (hk : segments[k]? = some s) :
    (run modelLoaded initError file_path existing cancel none "srt"
        initial_prompt task segments).events[1 + 3 * k]? =
      some (FileEvent.write (decRepr (k + 1) ++ "\n")) ∧
    dumpedRecords (run modelLoaded initError file_path existing cancel none "json"
        initial_prompt task segments) =
      some ((segments.enumFrom 0).map (fun q => mkJsonRecord q.1 q.2)) ∧
    ((segments.enumFrom 0).map (fun q => mkJsonRecord q.1 q.2))[k]? =
      some { id := k, start := s.start, end_ := s.end_, text := strStrip s.text } := by
  have hklen : k < segments.length := by
    by_contra hge
    rw [List.getElem?_eq_none (by omega)] at hk
    exact Option.noConfusion hk
  refine ⟨?_, ?_, ?_⟩
  · rw [run_proceeds _ _ _ _ _ _ _ _ _ _ hinit,
      runBody_normal_streaming _ _ _ _ _ _ _ hc (by decide)]
    have hs : strLower "srt" = "srt" := by decide
    rw [hs]
    have hh : headerWrites "srt" = [] := by decide
    rw [hh, List.nil_append]
    rw [show 1 + 3 * k = 3 * k + 1 by ring]
    rw [List.getElem?_cons_succ, List.getElem?_append]
    rw [if_pos (by rw [srt_flatMap_length segments 0]; omega)]
    rw [srt_flatMap_getElem segments 0 k hklen]
    rw [show 0 + k + 1 = k + 1 by ring]
  · rw [run_proceeds _ _ _ _ _ _ _ _ _ _ hinit,
      runBody_normal_json _ _ _ _ _ _ _ hc (by decide)]
    rfl
  · rw [enumFrom_map_record_getElem segments 0 k s hk]
    rw [show (0 : ℕ) + k = k by ring]
    rfl

theorem claim6_witness :
    (run true none "v.mp4" [] none none "srt" none "transcribe"
        [⟨0, 1, "a"⟩, ⟨1, 2, "b"⟩]).events[1 + 3 * 1]? =
      some (FileEvent.write (decRepr (1 + 1) ++ "\n")) ∧
    dumpedRecords (run true none "v.mp4" [] none none "json" none "transcribe"
        [⟨0, 1, "a"⟩, ⟨1, 2, "b"⟩]) =
      some ((([⟨0, 1, "a"⟩, ⟨1, 2, "b"⟩] : List Segment).enumFrom 0).map
        (fun q => mkJsonRecord q.1 q.2)) ∧
    ((([⟨0, 1, "a"⟩, ⟨1, 2, "b"⟩] : List Segment).enumFrom 0).map
        (fun q => mkJsonRecord q.1 q.2))[1]? =
      some { id := 1, start := (1 : ℚ), end_ := (2 : ℚ), text := strStrip "b" } :=
  claim6_srt_json_index_asymmetry true none "v.mp4" [] none none "transcribe"
    [⟨0, 1, "a"⟩, ⟨1, 2, "b"⟩] 1 ⟨1, 2, "b"⟩ (Or.inl rfl) (by decide) (by decide)

theorem roundHalfEvenMul_nonneg (q : ℚ) (m : ℕ) (hq : 0 ≤ q) :
    0 ≤ roundHalfEvenMul q m := by
  have hnum : 0 ≤ q.num := Rat.num_nonneg.mpr hq
  have hf : 0 ≤ (q.num * m).fdiv (q.den : ℤ) :=
    Int.fdiv_nonneg (by positivity) (by positivity)
  simp only [roundHalfEvenMul]
  split
  · exact hf
  · split
    · omega
    · split
      · exact hf
      · omega

theorem qmul_nat_eq_cast_div (q : ℚ) (m : ℕ) :
    (q * m : ℚ) = ((q.num * m : ℤ) : ℚ) / ((q.den : ℕ) : ℚ) := by
  conv_lhs => rw [← Rat.num_div_den q]
  push_cast
  ring

theorem floor_qmul_nat (q : ℚ) (m : ℕ) :
    ⌊(q * m : ℚ)⌋ = (q.num * m) / (q.den : ℤ) := by
  rw [qmul_nat_eq_cast_div, Rat.floor_intCast_div_natCast]

theorem frac_qmul_nat (q : ℚ) (m : ℕ) :
    ((q * m : ℚ) - ⌊(q * m : ℚ)⌋) * ((q.den : ℕ) : ℚ) =
      ((q.num * m % (q.den : ℤ) : ℤ) : ℚ) := by
  have hden : ((q.den : ℕ) : ℚ) ≠ 0 := Nat.cast_ne_zero.mpr q.den_nz
  have h0 := Int.ediv_add_emod (q.num * (m : ℤ)) (q.den : ℤ)
  have h1 : ((q.den : ℤ) : ℚ) * ((q.num * (m : ℤ) / (q.den : ℤ) : ℤ) : ℚ) +
      ((q.num * (m : ℤ) % (q.den : ℤ) : ℤ) : ℚ) = ((q.num * (m : ℤ) : ℤ) : ℚ) := by
    exact_mod_cast congrArg (fun z : ℤ => (z : ℚ)) h0
  have hc : ((q.den : ℤ) : ℚ) = ((q.den : ℕ) : ℚ) := by
    push_cast
    rfl
  rw [hc] at h1
  rw [floor_qmul_nat q m, qmul_nat_eq_cast_div q m, sub_mul, div_mul_cancel₀ _ hden]
  linarith [h1]

theorem roundHalfEvenMul_of_lt_half (q : ℚ) (m : ℕ)
    (h : (q * m : ℚ) - ⌊(q * m : ℚ)⌋ < 1 / 2) :
    roundHalfEvenMul q m = ⌊(q * m : ℚ)⌋ := by
  have hdpos : (0 : ℤ) < (q.den : ℤ) := by exact_mod_cast q.den_pos
  have hdenposQ : (0 : ℚ) < ((q.den : ℕ) : ℚ) := by exact_mod_cast q.den_pos
  have hmodQ : ((q.num * m % (q.den : ℤ) : ℤ) : ℚ) < ((q.den : ℕ) : ℚ) / 2 := by
    rw [← frac_qmul_nat]
    nlinarith [h, hdenposQ]
  have hmod : 2 * (q.num * m % (q.den : ℤ)) < (q.den : ℤ) := by
    have h2 : ((2 * (q.num * m % (q.den : ℤ)) : ℤ) : ℚ) < (((q.den : ℤ) : ℤ) : ℚ) := by
      push_cast
      push_cast at hmodQ
      linarith
    exact_mod_cast h2
  simp only [roundHalfEvenMul]
  rw [Int.fmod_eq_emod _ (le_of_lt hdpos)]
  rw [if_pos hmod]
  rw [Int.fdiv_eq_ediv _ (le_of_lt hdpos), floor_qmul_nat]

theorem roundHalfEvenMul_of_gt_half (q : ℚ) (m : ℕ)
    (h : 1 / 2 < (q * m : ℚ) - ⌊(q * m : ℚ)⌋) :
    roundHalfEvenMul q m = ⌊(q * m : ℚ)⌋ + 1 := by
  have hdpos : (0 : ℤ) < (q.den : ℤ) := by exact_mod_cast q.den_pos
  have hdenposQ : (0 : ℚ) < ((q.den : ℕ) : ℚ) := by exact_mod_cast q.den_pos
  have hmodQ : ((q.den : ℕ) : ℚ) / 2 < ((q.num * m % (q.den : ℤ) : ℤ) : ℚ) := by
    rw [← frac_qmul_nat]
    nlinarith [h, hdenposQ]
  have hmod : (q.den : ℤ) < 2 * (q.num * m % (q.den : ℤ)) := by
    have h2 : (((q.den : ℤ) : ℤ) : ℚ) < ((2 * (q.num * m % (q.den : ℤ)) : ℤ) : ℚ) := by
      push_cast
      push_cast at hmodQ
      linarith
    exact_mod_cast h2
  simp only [roundHalfEvenMul]
  rw [Int.fmod_eq_emod _ (le_of_lt hdpos)]
  rw [if_neg (by omega), if_pos hmod]
  rw [Int.fdiv_eq_ediv _ (le_of_lt hdpos), floor_qmul_nat]

/-- C4 counterexample: the claim's truncation policy fails on the code.  At
`seconds = 1835/16384 = 0.11199951171875` (a dyadic rational, hence an exactly
representable Python float) the sub-second remainder is `111.99951171875` ms;
truncation to milliseconds gives `111`, but `datetime.timedelta` first rounds the
input to whole microseconds (`111999.51171875 µs` rounds to `112000 µs`), so the
code prints `112`.  `format_timestamp_specModel` is the formatter as the spec's
words describe it. -/
theorem claim4_counterexample :
    format_timestamp (mkRat 1835 16384) "," = "00:00:00,112" ∧
    format_timestamp_specModel (mkRat 1835 16384) "," = "00:00:00,111" ∧
    format_timestamp (mkRat 1835 16384) "," ≠
      format_timestamp_specModel (mkRat 1835 16384) "," ∧
    (0 : ℚ) ≤ mkRat 1835 16384 :=
  ⟨by decide, by decide, by decide, by decide⟩

/-- C4 amended: for every `seconds ≥ 0` and separator, `format_timestamp` returns
the fixed layout `HH:MM:SS<sep>mmm` with hours/minutes/seconds zero-padded to 2
digits (hours unbounded, not wrapped at 24) and milliseconds to 3 digits, where
the components are derived from the total microseconds `us` obtained by rounding
`seconds × 10^6` to the nearest integer (ties to even — the `datetime.timedelta`
normalisation): the whole-second component is `us` truncated to seconds and the
millisecond component is the sub-second microsecond remainder truncated to
milliseconds.  In particular `format_timestamp(3661.2505, ",") = "01:01:01,250"`.
(The spec's plain truncation of the remainder agrees except within half a
microsecond below a millisecond boundary, where the µs rounding rounds up —
see the counterexample.) -/
theorem claim4_amended_timestamp (q : ℚ) (sep : String) (hq : 0 ≤ q) :
    format_timestamp q sep =
      zeroPad 2 (roundHalfEvenMul q 1000000 / 3600000000) ++ ":" ++
      zeroPad 2 (roundHalfEvenMul q 1000000 / 60000000 % 60) ++ ":" ++
      zeroPad 2 (roundHalfEvenMul q 1000000 / 1000000 % 60) ++ sep ++
      zeroPad 3 (roundHalfEvenMul q 1000000 % 1000000 / 1000) ∧
    ((q * (1000000 : ℕ) : ℚ) - ⌊(q * (1000000 : ℕ) : ℚ)⌋ < 1 / 2 →
      roundHalfEvenMul q 1000000 = ⌊(q * (1000000 : ℕ) : ℚ)⌋) ∧
    (1 / 2 < (q * (1000000 : ℕ) : ℚ) - ⌊(q * (1000000 : ℕ) : ℚ)⌋ →
      roundHalfEvenMul q 1000000 = ⌊(q * (1000000 : ℕ) : ℚ)⌋ + 1) ∧
    format_timestamp (mkRat 36612505 10000) "," = "01:01:01,250" := by
  refine ⟨?_, roundHalfEvenMul_of_lt_half q 1000000,
    roundHalfEvenMul_of_gt_half q 1000000, by decide⟩
  have hus0 : 0 ≤ roundHalfEvenMul q 1000000 := roundHalfEvenMul_nonneg q 1000000 hq
  simp only [format_timestamp]
  rw [Int.tdiv_eq_ediv hus0 (by norm_num)]
  rw [Int.fmod_eq_emod _ (by norm_num : (0 : ℤ) ≤ 3600)]
  rw [Int.fmod_eq_emod _ (by norm_num : (0 : ℤ) ≤ 60)]
  rw [Int.fmod_eq_emod _ (by norm_num : (0 : ℤ) ≤ 1000000)]
  rw [Int.fdiv_eq_ediv _ (by norm_num : (0 : ℤ) ≤ 3600)]
  rw [Int.fdiv_eq_ediv _ (by norm_num : (0 : ℤ) ≤ 60)]
  rw [Int.tdiv_eq_ediv (Int.emod_nonneg _ (by norm_num)) (by norm_num)]
  have hh : roundHalfEvenMul q 1000000 / 1000000 / 3600 =
      roundHalfEvenMul q 1000000 / 3600000000 := by omega
  have hm : roundHalfEvenMul q 1000000 / 1000000 % 3600 / 60 =
      roundHalfEvenMul q 1000000 / 60000000 % 60 := by omega
  rw [hh, hm]

theorem claim4_witness :
    format_timestamp (mkRat 36612505 10000) "," = "01:01:01,250" :=
  (claim4_amended_timestamp (mkRat 36612505 10000) "," (by decide)).2.2.2
